import Mathlib

/-!
Verification development for the BnBcalendar appointment system.

The definitions below are a shallow embedding of the sync / conflict /
availability subsystem of the repository:

* `hasConflict`, `rescheduleHandler`   — `src/server/routes.ts`, the
  `PUT /api/appointments/:id/reschedule` route (lines 128-202);
* `deleteAppointmentHandler`           — the `DELETE /api/appointments/:id`
  route (lines 112-125);
* `syncStaffStep`, `syncAppStep`, `runSyncCore`, `syncOdooHandler`
                                       — the `POST /api/sync/odoo` route
  (lines 205-298);
* `MemStorage` operations              — `src/server` storage module
  (`getAppointment`, `getAppointmentByOdooEventId`, `getStaffByOdooUserId`,
  `createStaff`, `createAppointment`, `updateAppointment`,
  `deleteAppointment`);
* `isStaffAvailable`                   — the client component
  `src/client/src/components/calendar/CalendarGrid.tsx` (lines 191-218);
* `bookedAppointment`                  — one iteration of the booking loop of
  `POST /api/appointments/book` (lines 340-381).

Modelling conventions: JS `Date` values are milliseconds since the epoch
(`Int`); JS numbers that can be fractional (durations, decimal hours) are
`ℚ`; `randomUUID()` is modelled by a fresh-id counter carried in the store;
`Math.random()` colors are an oracle `Nat → String` indexed by that counter;
a JS value that may be `null`/`undefined` is an `Option`; JS `x || y` on
strings is `jsOrStr` (empty string falsy), on possibly-missing values it is
`Option`-fallback.
-/

namespace BnB

/-- Local appointment record, after the fields `MemStorage.createAppointment`
normalises (`?? null` defaults applied). Times are epoch milliseconds,
`duration` is the stored duration field in minutes. -/
structure Appointment where
  id : Nat
  odooEventId : Int
  name : String
  customerName : String
  customerEmail : Option String
  customerPhone : Option String
  service : String
  startTime : Int
  endTime : Int
  duration : ℚ
  staffId : Option Nat
  status : String
  price : Option String
  notes : Option String
  lastSynced : Int
  deriving Repr, DecidableEq

/-- Local staff record as stored by `MemStorage` (with the `workingHours`
column used by the client availability check). -/
structure Staff where
  id : Nat
  odooUserId : Int
  name : String
  email : Option String
  role : Option String
  color : String
  isActive : Bool
  workingHours : Option String
  createdAt : Int
  deriving Repr, DecidableEq

/-- The `MemStorage` state: the two entity maps (insertion-ordered, hence
lists), the fresh-id counter standing in for `randomUUID()`, and the two
calendar-settings fields the sync route touches. -/
structure Store where
  staffList : List Staff
  appointments : List Appointment
  nextId : Nat
  lastOdooSync : Option Int
  settingsUpdatedAt : Int
  deriving Repr, DecidableEq

/-- `MemStorage.getAppointment`. -/
def getAppointment (s : Store) (id : Nat) : Option Appointment :=
  s.appointments.find? (fun a => a.id == id)

/-- `MemStorage.getAppointmentByOdooEventId` (first match in insertion
order, as `Array.from(map.values()).find` does). -/
def getAppointmentByOdooEventId (s : Store) (e : Int) : Option Appointment :=
  s.appointments.find? (fun a => a.odooEventId == e)

/-- `MemStorage.getStaffByOdooUserId`. -/
def getStaffByOdooUserId (staffList : List Staff) (u : Int) : Option Staff :=
  staffList.find? (fun st => st.odooUserId == u)

/-- The conflict test of the reschedule route (routes.ts lines 151-162):
skip the appointment being moved, skip other staff, and report any overlap
with `newStart < apt.endTime && newEnd > apt.startTime`. -/
def hasConflict (allAppointments : List Appointment) (id : Nat)
    (targetStaffId : Nat) (newStart newEnd : Int) : Bool :=
  allAppointments.any fun apt =>
    if apt.id == id then false
    else if !(apt.staffId == some targetStaffId) then false
    else decide (newStart < apt.endTime) && decide (newEnd > apt.startTime)

/-- Remote (Odoo) calls a route can issue, recorded for the theorems about
which remote operations a handler attempts. -/
inductive RemoteCall where
  | updateOdooAppointment (odooEventId : Int) (start stop : Int)
  | deleteOdooAppointment (odooEventId : Int)
  deriving Repr, DecidableEq

/-- Result of the reschedule route: HTTP status, resulting storage state,
remote calls attempted, and the `odooSynced` flag of the 200 response
(false on the other statuses, where the response has no such flag). -/
structure RescheduleResult where
  status : Nat
  store : Store
  remoteCalls : List RemoteCall
  odooSynced : Bool
  deriving Repr, DecidableEq

/-- Result of the delete route. -/
structure DeleteResult where
  status : Nat
  store : Store
  remoteCalls : List RemoteCall
  deriving Repr, DecidableEq

/-- `targetStaffId = staffId || appointment.staffId` of the reschedule route
(line 143); a missing request field falls back to the current staff. -/
def targetOf (staffId : Option Nat) (appointment : Appointment) : Option Nat :=
  match staffId with
  | some x => some x
  | none => appointment.staffId

/-- The guarded conflict check of the reschedule route (lines 146-167): the
check only runs when `targetStaffId` is truthy. -/
def conflictOf (s : Store) (id : Nat) (target : Option Nat)
    (newStart newEnd : Int) : Bool :=
  match target with
  | some tgt => hasConflict s.appointments id tgt newStart newEnd
  | none => false

/-- The local mutation the reschedule route commits (lines 182-193 plus
`MemStorage.updateAppointment`): new times, staff only if provided in the
request, `lastSynced` refreshed.  The `duration` field is not touched. -/
def applyReschedule (a : Appointment) (st en : Int) (staffId : Option Nat)
    (now : Int) : Appointment :=
  { a with startTime := st, endTime := en,
           staffId := match staffId with
                      | some x => some x
                      | none => a.staffId,
           lastSynced := now }

/-- The `PUT /api/appointments/:id/reschedule` route (lines 128-202).
`startTime`/`endTime` are `none` when missing from the request body;
`remoteOk` is the oracle for whether `odooService.updateAppointment`
succeeds or throws. -/
def rescheduleHandler (s : Store) (remoteOk : Bool) (now : Int) (id : Nat)
    (startTime endTime : Option Int) (staffId : Option Nat) :
    RescheduleResult :=
  match startTime, endTime with
  | some st, some en =>
    (match getAppointment s id with
     | none => ⟨404, s, [], false⟩
     | some appointment =>
       if conflictOf s id (targetOf staffId appointment) st en then
         ⟨409, s, [], false⟩
       else
         ⟨200,
          { s with appointments := s.appointments.map fun a =>
              if a.id == id then applyReschedule a st en staffId now else a },
          [RemoteCall.updateOdooAppointment appointment.odooEventId st en],
          remoteOk⟩)
  | _, _ => ⟨400, s, [], false⟩

/-- The `DELETE /api/appointments/:id` route (lines 112-125): it calls
`storage.deleteAppointment` and returns 404 when nothing was deleted.  No
remote call is made on this path. -/
def deleteAppointmentHandler (s : Store) (id : Nat) : DeleteResult :=
  let existed := s.appointments.any (fun a => a.id == id)
  let s' := { s with appointments := s.appointments.filter fun a => !(a.id == id) }
  if existed then ⟨200, s', []⟩ else ⟨404, s', []⟩

/-- Concrete appointment builder for counterexamples and witnesses: only the
fields the conflict test reads vary, the rest take storage defaults. -/
def mkApt (id : Nat) (sid : Option Nat) (st en : Int) (status : String) :
    Appointment :=
  { id := id, odooEventId := 0, name := "", customerName := "",
    customerEmail := none, customerPhone := none, service := "",
    startTime := st, endTime := en, duration := 60, staffId := sid,
    status := status, price := none, notes := none, lastSynced := 0 }

/-- Result of the sync route: HTTP status and resulting storage state. -/
structure SyncResult where
  status : Nat
  store : Store
  deriving Repr, DecidableEq

/-- Remote resource record as consumed by the sync route
(`odooService.fetchResources()`): the fields the route reads.  The
`employee_id` many2one is modelled by the referenced id, `none` when the
remote field is falsy. -/
structure OdooResource where
  id : Int
  name : String
  employee_id : Option Int
  deriving Repr, DecidableEq

/-- Remote appointment record as consumed by the sync route
(`odooService.fetchAppointments`).  Many2one array values `[id, name]` are
modelled as optional pairs, absent/falsy values as `none`; `start`/`stop`
are already converted to epoch milliseconds. -/
structure OdooApp where
  id : Int
  name : String
  appointment_resource_id : Option Int
  partner_ids : List Int
  partner_id : Option (Int × String)
  appointment_type_id : Option (Int × String)
  start : Int
  stop : Int
  duration : Option ℚ
  description : Option String
  deriving Repr, DecidableEq

/-- The staff shape passed to `storage.createStaff` by the sync route. -/
structure InsertStaff where
  odooUserId : Int
  name : String
  email : Option String
  role : Option String
  color : Option String
  isActive : Option Bool
  deriving Repr, DecidableEq

/-- The appointment shape the sync route builds from a remote record
(routes.ts lines 254-269) and passes to create/update. -/
structure SyncAppointmentData where
  odooEventId : Int
  name : String
  customerName : String
  customerEmail : String
  customerPhone : String
  service : String
  startTime : Int
  endTime : Int
  duration : ℚ
  staffId : Option Nat
  status : String
  notes : String
  deriving Repr, DecidableEq

/-- JS `x || y` on strings: the empty string is falsy. -/
def jsOrStr (a b : String) : String :=
  if a == "" then b else a

/-- Core of `name.toLowerCase().replace(/\s+/g, '.')`: collapse each run of
whitespace into a single dot (the second argument tracks whether the
previous character was whitespace). -/
def collapseWhitespace : List Char → Bool → List Char
  | [], _ => []
  | c :: rest, prevWs =>
    if c.isWhitespace then
      if prevWs then collapseWhitespace rest true
      else '.' :: collapseWhitespace rest true
    else c :: collapseWhitespace rest false

/-- The generated staff email of the sync route (line 221). -/
def mkStaffEmail (name : String) : String :=
  String.mk (collapseWhitespace name.toLower.data false) ++ "@salon.com"

/-- `MemStorage.createStaff`: apply the `??` defaults, assign a fresh id and
`createdAt`, and append to the staff map. -/
def createStaffRecord (s : Store) (ins : InsertStaff) (now : Int) : Store :=
  let st : Staff :=
    { id := s.nextId, odooUserId := ins.odooUserId, name := ins.name,
      email := ins.email, role := ins.role,
      color := ins.color.getD ("#6366f1"),
      isActive := ins.isActive.getD true,
      workingHours := none, createdAt := now }
  { s with staffList := s.staffList ++ [st], nextId := s.nextId + 1 }

/-- One iteration of the staff loop of the sync route (lines 215-227):
create a staff member for the resource unless one with that remote user id
already exists.  `rand` is the `Math.random()` color oracle, indexed by the
fresh-id counter. -/
def syncStaffStep (rand : Nat → String) (now : Int) (s : Store)
    (resource : OdooResource) : Store :=
  match getStaffByOdooUserId s.staffList resource.id with
  | some _ => s
  | none =>
    createStaffRecord s
      { odooUserId := resource.id, name := resource.name,
        email := some (if resource.employee_id.isSome
                       then mkStaffEmail resource.name else ("")),
        role := some ("Stylist"), color := some (rand s.nextId),
        isActive := some true } now

/-- The `appointmentData` object built for one remote appointment
(lines 238-269): resolve the staff by `appointment_resource_id`, derive the
customer name, and map the remote fields. -/
def mkAppointmentData (staffList : List Staff) (odooApp : OdooApp) :
    SyncAppointmentData :=
  let staff := match odooApp.appointment_resource_id with
    | some rid => getStaffByOdooUserId staffList rid
    | none => none
  let customerName :=
    if odooApp.partner_ids.length > 0 then
      jsOrStr ((odooApp.name.splitOn (" - ")).headD ("")) odooApp.name
    else
      match odooApp.partner_id with
      | some p => p.2
      | none => "Unknown Customer"
  { odooEventId := odooApp.id,
    name := jsOrStr odooApp.name ("Untitled Appointment"),
    customerName := customerName,
    customerEmail := "",
    customerPhone := "",
    service := match odooApp.appointment_type_id with
      | some t => t.2
      | none => jsOrStr odooApp.name ("General Service"),
    startTime := odooApp.start,
    endTime := odooApp.stop,
    duration := match odooApp.duration with
      | some d => if d == 0 then 60 else d
      | none => 60,
    staffId := staff.map (fun st => st.id),
    status := "confirmed",
    notes := odooApp.description.getD ("") }

/-- `storage.updateAppointment(existing.id, appointmentData)`: spread the
sync data over the stored record (every synced field overwritten, `id` and
`price` preserved, `lastSynced` refreshed). -/
def applySyncUpdate (a : Appointment) (d : SyncAppointmentData) (now : Int) :
    Appointment :=
  { a with odooEventId := d.odooEventId, name := d.name,
           customerName := d.customerName,
           customerEmail := some d.customerEmail,
           customerPhone := some d.customerPhone,
           service := d.service, startTime := d.startTime,
           endTime := d.endTime, duration := d.duration,
           staffId := d.staffId, status := d.status,
           notes := some d.notes, lastSynced := now }

/-- The record `storage.createAppointment(appointmentData)` stores on the
sync path: the `??` defaults applied to the sync payload, a fresh id and
`lastSynced`. -/
def newSyncAppointment (nid : Nat) (d : SyncAppointmentData) (now : Int) :
    Appointment :=
  { id := nid, odooEventId := d.odooEventId, name := d.name,
    customerName := d.customerName, customerEmail := some d.customerEmail,
    customerPhone := some d.customerPhone, service := d.service,
    startTime := d.startTime, endTime := d.endTime,
    duration := d.duration, staffId := d.staffId, status := d.status,
    price := none, notes := some d.notes, lastSynced := now }

/-- `storage.createAppointment(appointmentData)`: append the new record and
advance the fresh-id counter. -/
def createAppointmentFromSync (s : Store) (d : SyncAppointmentData)
    (now : Int) : Store :=
  { s with appointments := s.appointments ++ [newSyncAppointment s.nextId d now],
           nextId := s.nextId + 1 }

/-- One iteration of the appointment loop of the sync route (lines 235-278):
upsert keyed by the remote event id (update the first local appointment with
that `odooEventId`, else create). -/
def syncAppStep (now : Int) (s : Store) (odooApp : OdooApp) : Store :=
  let d := mkAppointmentData s.staffList odooApp
  match getAppointmentByOdooEventId s odooApp.id with
  | some existing =>
    { s with appointments := s.appointments.map fun a =>
        if a.id == existing.id then applySyncUpdate a d now else a }
  | none => createAppointmentFromSync s d now

/-- The successful sync pass of `POST /api/sync/odoo` (lines 205-289): the
staff loop, the appointment loop, then the `lastOdooSync` watermark
update. -/
def runSyncCore (rand : Nat → String) (now : Int)
    (resources : List OdooResource) (apps : List OdooApp) (s : Store) :
    Store :=
  let s1 := resources.foldl (syncStaffStep rand now) s
  let s2 := apps.foldl (syncAppStep now) s1
  { s2 with lastOdooSync := some now, settingsUpdatedAt := now }

/-- The `POST /api/sync/odoo` route, with the two remote fetches as oracles
(`.error` models a thrown `odooService` call, caught by the route's single
try/catch which answers 500).  There is no lock, no in-flight flag and no
rejection branch: every invocation that reaches the handler runs the sync
loops. -/
def syncOdooHandler (resourcesFetch : Except String (List OdooResource))
    (appsFetch : Except String (List OdooApp)) (rand : Nat → String)
    (now : Int) (s : Store) : SyncResult :=
  match resourcesFetch with
  | .error _ => ⟨500, s⟩
  | .ok resources =>
    let s1 := resources.foldl (syncStaffStep rand now) s
    match appsFetch with
    | .error _ => ⟨500, s1⟩
    | .ok apps =>
      let s2 := apps.foldl (syncAppStep now) s1
      ⟨200, { s2 with lastOdooSync := some now, settingsUpdatedAt := now }⟩

/-- Erase the field the sync refreshes on every pass (`lastSynced`), for
comparing states up to sync timestamps. -/
def eraseApp (a : Appointment) : Appointment :=
  { a with lastSynced := 0 }

/-- Erase every sync timestamp of a store (appointment `lastSynced`, the
settings watermark and its `updatedAt`). -/
def eraseStore (s : Store) : Store :=
  { s with appointments := s.appointments.map eraseApp,
           lastOdooSync := none, settingsUpdatedAt := 0 }

/-- Store sanity: local appointment ids are pairwise distinct and below the
fresh-id counter (true of every store `MemStorage` can reach, since ids are
handed out by `randomUUID`, modelled by the counter). -/
def NiceStore (s : Store) : Prop :=
  (s.appointments.map (fun a => a.id)).Nodup ∧
    ∀ a ∈ s.appointments, a.id < s.nextId

instance (s : Store) : Decidable (NiceStore s) := by
  unfold NiceStore; infer_instance

/-- The synced fields of a stored appointment agree with a sync payload
(`id`, `price`, `lastSynced` are the fields an update does not overwrite). -/
def matchesData (a : Appointment) (d : SyncAppointmentData) : Prop :=
  a.odooEventId = d.odooEventId ∧ a.name = d.name ∧
    a.customerName = d.customerName ∧ a.customerEmail = some d.customerEmail ∧
    a.customerPhone = some d.customerPhone ∧ a.service = d.service ∧
    a.startTime = d.startTime ∧ a.endTime = d.endTime ∧
    a.duration = d.duration ∧ a.staffId = d.staffId ∧
    a.status = d.status ∧ a.notes = some d.notes

/-- Working-hours schedule entry, as stored in the JSON `workingHours`
column: remote day-numbering (Monday = 0), decimal start/end hours. -/
structure WorkEntry where
  dayOfWeek : Nat
  hourFrom : ℚ
  hourTo : ℚ
  deriving Repr, DecidableEq

/-- The components of the slot `Date` that `isStaffAvailable` reads:
`getDay()` (native convention, Sunday = 0), `getHours()`, `getMinutes()`. -/
structure SlotTime where
  jsDay : Fin 7
  hour : Nat
  minute : Nat
  deriving Repr, DecidableEq

/-- The slot's time of day as a decimal hour (`getHours() + getMinutes()/60`,
CalendarGrid.tsx line 204). -/
def slotDecimalHour (t : SlotTime) : ℚ :=
  (t.hour : ℚ) + (t.minute : ℚ) / 60

/-- `isStaffAvailable` of CalendarGrid.tsx (lines 191-218).  `JSON.parse`
plus the array-shape reading is the oracle `parse`; `parse s = none` models
a parse that throws, which the catch block turns into `true` (fail-open), as
does an absent `workingHours`. -/
def isStaffAvailable (parse : String → Option (List WorkEntry))
    (slotTime : SlotTime) (staffMember : Staff) : Bool :=
  match staffMember.workingHours with
  | none => true
  | some whString =>
    match parse whString with
    | none => true
    | some workingHours =>
      let odooDayOfWeek : Nat :=
        if (slotTime.jsDay : Nat) == 0 then 6 else (slotTime.jsDay : Nat) - 1
      let slotHours : ℚ := slotDecimalHour slotTime
      workingHours.any fun wh =>
        wh.dayOfWeek == odooDayOfWeek &&
          decide (wh.hourFrom ≤ slotHours) && decide (slotHours < wh.hourTo)

/-- One iteration of the booking loop of `POST /api/appointments/book`
(lines 340-381): the appointment type's duration (hours) becomes
`durationMinutes = appointment_duration * 60`; the end time is the start
plus that many minutes (`setMinutes`, whose ToInteger conversion floors the
non-negative minute count); the local record stores `durationMinutes` in its
`duration` field.  Only the fields relevant to the duration invariant are
modelled concretely; the rest mirror lines 363-377. -/
def bookedAppointment (nid : Nat) (odooEventId : Int)
    (customerName : String) (service : String) (typeDurationHours : ℚ)
    (startTime : Int) (staffId : Option Nat) (now : Int) : Appointment :=
  let durationMinutes : ℚ := typeDurationHours * 60
  let endTime : Int := startTime + 60000 * ⌊durationMinutes⌋
  { id := nid, odooEventId := odooEventId, name := customerName,
    customerName := customerName, customerEmail := none,
    customerPhone := none, service := service, startTime := startTime,
    endTime := endTime, duration := durationMinutes, staffId := staffId,
    status := "confirmed", price := none, notes := none, lastSynced := now }

/-- Membership characterisation of the conflict test. -/
theorem hasConflict_iff (l : List Appointment) (id : Nat) (tgt : Nat)
    (ns ne : Int) :
    hasConflict l id tgt ns ne = true ↔
      ∃ apt ∈ l, apt.id ≠ id ∧ apt.staffId = some tgt ∧
        ns < apt.endTime ∧ ne > apt.startTime := by
  unfold hasConflict
  rw [List.any_eq_true]
  constructor
  · rintro ⟨apt, hmem, hcond⟩
    refine ⟨apt, hmem, ?_⟩
    by_cases h1 : apt.id = id
    · simp [h1] at hcond
    · by_cases h2 : apt.staffId = some tgt
      · simp [h1, h2] at hcond
        exact ⟨h1, h2, hcond.1, hcond.2⟩
      · simp [h1, h2] at hcond
  · rintro ⟨apt, hmem, h1, h2, h3, h4⟩
    exact ⟨apt, hmem, by simp [h1, h2, h3, h4]⟩

/-- Claim C1, counterexample: the claim says a zero-duration candidate is
never reported as conflicting, but a zero-duration candidate strictly inside
an existing appointment of the same staff member satisfies
`newStart < apt.endTime && newEnd > apt.startTime`.  Concretely: existing
appointment [0ms, 7200000ms) for staff 7, candidate [3600000, 3600000). -/
theorem zeroDurationConflict_counterexample :
    hasConflict [mkApt 1 (some 7) 0 7200000 ("confirmed")] 99 7
      3600000 3600000 = true := by decide

/-- Claim C1 (amended): a zero-duration candidate `[t, t)` is reported as
conflicting if and only if `t` lies strictly inside the open interval of some
other appointment of the target staff member; in particular it never
conflicts when `t` is at or beyond every such appointment's endpoints. -/
theorem zeroDurationConflict_amended (l : List Appointment) (id : Nat)
    (tgt : Nat) (t : Int) :
    hasConflict l id tgt t t = true ↔
      ∃ apt ∈ l, apt.id ≠ id ∧ apt.staffId = some tgt ∧
        apt.startTime < t ∧ t < apt.endTime := by
  rw [hasConflict_iff]
  constructor
  · rintro ⟨apt, hmem, h1, h2, h3, h4⟩
    exact ⟨apt, hmem, h1, h2, h4, h3⟩
  · rintro ⟨apt, hmem, h1, h2, h3, h4⟩
    exact ⟨apt, hmem, h1, h2, h4, h3⟩

/-- Claim C4: the conflict check returns true iff some appointment of the
target staff, other than the one being moved, satisfies
`candidateStart < existing.end` and `candidateEnd > existing.start`; touching
intervals [10:00,11:00) and [11:00,12:00) do not conflict, while
[10:00,11:00) and [10:30,11:30) do (times as epoch milliseconds). -/
theorem conflict_overlap_characterization :
    (∀ (l : List Appointment) (id : Nat) (tgt : Nat) (ns ne : Int),
      hasConflict l id tgt ns ne = true ↔
        ∃ apt ∈ l, apt.id ≠ id ∧ apt.staffId = some tgt ∧
          ns < apt.endTime ∧ ne > apt.startTime) ∧
    hasConflict [mkApt 1 (some 7) 36000000 39600000 ("confirmed")] 2 7
      39600000 43200000 = false ∧
    hasConflict [mkApt 1 (some 7) 36000000 39600000 ("confirmed")] 2 7
      37800000 41400000 = true := by
  refine ⟨fun l id tgt ns ne => hasConflict_iff l id tgt ns ne, ?_, ?_⟩ <;> decide

/-- Helper: the reschedule route's answer when the conflict check fires. -/
theorem rescheduleHandler_conflict_eq (s : Store) (remoteOk : Bool)
    (now : Int) (id : Nat) (st en : Int) (sid : Option Nat)
    (a0 : Appointment) (h1 : getAppointment s id = some a0)
    (h3 : conflictOf s id (targetOf sid a0) st en = true) :
    rescheduleHandler s remoteOk now id (some st) (some en) sid =
      ⟨409, s, [], false⟩ := by
  unfold rescheduleHandler
  rw [h1]
  simp [h3]

/-- Helper: the reschedule route's answer when the conflict check passes. -/
theorem rescheduleHandler_ok_eq (s : Store) (remoteOk : Bool)
    (now : Int) (id : Nat) (st en : Int) (sid : Option Nat)
    (a0 : Appointment) (h1 : getAppointment s id = some a0)
    (h2 : conflictOf s id (targetOf sid a0) st en = false) :
    rescheduleHandler s remoteOk now id (some st) (some en) sid =
      ⟨200,
       { s with appointments := s.appointments.map fun a =>
           if a.id == id then applyReschedule a st en sid now else a },
       [RemoteCall.updateOdooAppointment a0.odooEventId st en],
       remoteOk⟩ := by
  unfold rescheduleHandler
  rw [h1]
  simp [h2]

/-- Helper: `find?` through a map that rewrites only the found element. -/
theorem find?_map_update {α : Type} (p : α → Bool) (h : α → α)
    (l : List α) (x : α) (hfind : l.find? p = some x)
    (hother : ∀ a ∈ l, p a = false → h a = a) (hx : p (h x) = true) :
    (l.map h).find? p = some (h x) := by
  induction l with
  | nil => simp at hfind
  | cons a t ih =>
    by_cases hpa : p a = true
    · rw [List.find?_cons_of_pos _ hpa] at hfind
      have hax : a = x := by injection hfind
      subst hax
      rw [List.map_cons, List.find?_cons_of_pos _ hx]
    · have hfa : p a = false := by simpa using hpa
      rw [List.find?_cons_of_neg _ (by simp [hfa])] at hfind
      rw [List.map_cons, hother a (List.mem_cons_self a t) hfa,
        List.find?_cons_of_neg _ (by simp [hfa])]
      exact ih hfind (fun b hb hpb => hother b (List.mem_cons_of_mem a hb) hpb)

/-- Helper: `find?` through a map that fixes the found element and keeps
non-matching elements non-matching. -/
theorem find?_map_keep {α : Type} (p : α → Bool) (h : α → α)
    (l : List α) (x : α) (hfind : l.find? p = some x) (hkeep : h x = x)
    (hothers : ∀ a ∈ l, p a = false → p (h a) = false) :
    (l.map h).find? p = some x := by
  induction l with
  | nil => simp at hfind
  | cons a t ih =>
    by_cases hpa : p a = true
    · rw [List.find?_cons_of_pos _ hpa] at hfind
      have hax : a = x := by injection hfind
      subst hax
      rw [List.map_cons, hkeep, List.find?_cons_of_pos _ hpa]
    · have hfa : p a = false := by simpa using hpa
      rw [List.find?_cons_of_neg _ (by simp [hfa])] at hfind
      rw [List.map_cons,
        List.find?_cons_of_neg _
          (by simp [hothers a (List.mem_cons_self a t) hfa])]
      exact ih hfind (fun b hb hpb => hothers b (List.mem_cons_of_mem a hb) hpb)

/-- Helper: `find?` over an append when the left part already matches. -/
theorem find?_append_left {α : Type} (p : α → Bool) (l l' : List α) (x : α)
    (h : l.find? p = some x) : (l ++ l').find? p = some x := by
  induction l with
  | nil => simp at h
  | cons a t ih =>
    by_cases hpa : p a = true
    · rw [List.find?_cons_of_pos _ hpa] at h
      rw [List.cons_append, List.find?_cons_of_pos _ hpa]
      exact h
    · have hfa : p a = false := by simpa using hpa
      rw [List.find?_cons_of_neg _ (by simp [hfa])] at h
      rw [List.cons_append, List.find?_cons_of_neg _ (by simp [hfa])]
      exact ih h

/-- Helper: `find?` over an append when the left part has no match. -/
theorem find?_append_right {α : Type} (p : α → Bool) (l l' : List α)
    (h : l.find? p = none) : (l ++ l').find? p = l'.find? p := by
  induction l with
  | nil => simp
  | cons a t ih =>
    by_cases hpa : p a = true
    · rw [List.find?_cons_of_pos _ hpa] at h
      simp at h
    · have hfa : p a = false := by simpa using hpa
      rw [List.find?_cons_of_neg _ (by simp [hfa])] at h
      rw [List.cons_append, List.find?_cons_of_neg _ (by simp [hfa])]
      exact ih h

/-- Claim C5: when the candidate interval conflicts with an appointment of
the target staff member, the reschedule route answers 409, leaves the store
untouched and attempts no remote call. -/
theorem reschedule_conflict_rejected (s : Store) (remoteOk : Bool)
    (now : Int) (id : Nat) (st en : Int) (sid : Option Nat)
    (a0 : Appointment) (tgt : Nat)
    (h1 : getAppointment s id = some a0)
    (h2 : targetOf sid a0 = some tgt)
    (h3 : hasConflict s.appointments id tgt st en = true) :
    (rescheduleHandler s remoteOk now id (some st) (some en) sid).status = 409 ∧
    (rescheduleHandler s remoteOk now id (some st) (some en) sid).store = s ∧
    (rescheduleHandler s remoteOk now id (some st) (some en) sid).remoteCalls
      = [] := by
  have hc : conflictOf s id (targetOf sid a0) st en = true := by
    rw [h2]; simpa [conflictOf] using h3
  rw [rescheduleHandler_conflict_eq s remoteOk now id st en sid a0 h1 hc]
  exact ⟨rfl, rfl, rfl⟩

/-- Witness for C5: staff 7 has appointments [0ms,3600000ms) (the one being
moved) and [0ms,7200000ms); moving the first onto [1800000,5400000) is
rejected with 409 and no mutation. -/
theorem reschedule_conflict_rejected_witness :
    (rescheduleHandler ⟨[], [mkApt 1 (some 7) 0 3600000 ("confirmed"),
        mkApt 2 (some 7) 0 7200000 ("confirmed")], 3, none, 0⟩ true 99 1
        (some 1800000) (some 5400000) none).status = 409 ∧
    (rescheduleHandler ⟨[], [mkApt 1 (some 7) 0 3600000 ("confirmed"),
        mkApt 2 (some 7) 0 7200000 ("confirmed")], 3, none, 0⟩ true 99 1
        (some 1800000) (some 5400000) none).store =
      ⟨[], [mkApt 1 (some 7) 0 3600000 ("confirmed"),
        mkApt 2 (some 7) 0 7200000 ("confirmed")], 3, none, 0⟩ ∧
    (rescheduleHandler ⟨[], [mkApt 1 (some 7) 0 3600000 ("confirmed"),
        mkApt 2 (some 7) 0 7200000 ("confirmed")], 3, none, 0⟩ true 99 1
        (some 1800000) (some 5400000) none).remoteCalls = [] :=
  reschedule_conflict_rejected _ true 99 1 1800000 5400000 none
    (mkApt 1 (some 7) 0 3600000 ("confirmed")) 7
    (by decide) (by decide) (by decide)

/-- Claim C10: the conflict test never reads `status`, so an overlapping
appointment of the target staff member forces the 409 rejection whatever its
status is — including "cancelled" and "completed"; the witness below
instantiates a cancelled one. -/
theorem reschedule_conflict_ignores_status (s : Store) (remoteOk : Bool)
    (now : Int) (id : Nat) (st en : Int) (sid : Option Nat)
    (a0 apt : Appointment) (tgt : Nat)
    (h1 : getAppointment s id = some a0)
    (h2 : targetOf sid a0 = some tgt)
    (hmem : apt ∈ s.appointments) (hne : apt.id ≠ id)
    (hstaff : apt.staffId = some tgt)
    (hov1 : st < apt.endTime) (hov2 : en > apt.startTime) :
    (rescheduleHandler s remoteOk now id (some st) (some en) sid).status = 409 ∧
    (rescheduleHandler s remoteOk now id (some st) (some en) sid).store = s ∧
    (rescheduleHandler s remoteOk now id (some st) (some en) sid).remoteCalls
      = [] := by
  have h3 : hasConflict s.appointments id tgt st en = true :=
    (hasConflict_iff _ _ _ _ _).mpr ⟨apt, hmem, hne, hstaff, hov1, hov2⟩
  have hc : conflictOf s id (targetOf sid a0) st en = true := by
    rw [h2]; simpa [conflictOf] using h3
  rw [rescheduleHandler_conflict_eq s remoteOk now id st en sid a0 h1 hc]
  exact ⟨rfl, rfl, rfl⟩

/-- Witness for C10: the overlapping appointment [0ms,7200000ms) of staff 7
has status "cancelled", and the move onto [1800000,5400000) is still
rejected with 409. -/
theorem reschedule_conflict_ignores_status_witness :
    (rescheduleHandler ⟨[], [mkApt 1 (some 7) 0 3600000 ("confirmed"),
        mkApt 2 (some 7) 0 7200000 ("cancelled")], 3, none, 0⟩ true 99 1
        (some 1800000) (some 5400000) none).status = 409 ∧
    (rescheduleHandler ⟨[], [mkApt 1 (some 7) 0 3600000 ("confirmed"),
        mkApt 2 (some 7) 0 7200000 ("cancelled")], 3, none, 0⟩ true 99 1
        (some 1800000) (some 5400000) none).store =
      ⟨[], [mkApt 1 (some 7) 0 3600000 ("confirmed"),
        mkApt 2 (some 7) 0 7200000 ("cancelled")], 3, none, 0⟩ ∧
    (rescheduleHandler ⟨[], [mkApt 1 (some 7) 0 3600000 ("confirmed"),
        mkApt 2 (some 7) 0 7200000 ("cancelled")], 3, none, 0⟩ true 99 1
        (some 1800000) (some 5400000) none).remoteCalls = [] :=
  reschedule_conflict_ignores_status _ true 99 1 1800000 5400000 none
    (mkApt 1 (some 7) 0 3600000 ("confirmed"))
    (mkApt 2 (some 7) 0 7200000 ("cancelled")) 7
    (by decide) (by decide) (by decide) (by decide) (by decide)
    (by decide) (by decide)

/-- Helper: the appointment the successful reschedule path stores under the
moved id. -/
theorem reschedule_result_lookup (s : Store) (remoteOk : Bool)
    (now : Int) (id : Nat) (st en : Int) (sid : Option Nat)
    (a0 : Appointment)
    (h1 : getAppointment s id = some a0)
    (h2 : conflictOf s id (targetOf sid a0) st en = false) :
    getAppointment
      (rescheduleHandler s remoteOk now id (some st) (some en) sid).store id
      = some (applyReschedule a0 st en sid now) := by
  rw [rescheduleHandler_ok_eq s remoteOk now id st en sid a0 h1 h2]
  have h1' : s.appointments.find? (fun a => a.id == id) = some a0 := h1
  have hp : (a0.id == id) = true := by simpa using List.find?_some h1'
  have hmap := find?_map_update (fun a => a.id == id)
    (fun a => if a.id == id then applyReschedule a st en sid now else a)
    s.appointments a0 h1' (fun a _ ha => by simp [ha])
    (by simp [hp, applyReschedule])
  unfold getAppointment
  simpa [hp] using hmap

/-- Claim C6: once the conflict check passes, the reschedule route commits
the local mutation (new times, new staff if provided) whatever the remote
outcome is, and the 200 response's `odooSynced` flag equals exactly whether
the remote update succeeded. -/
theorem reschedule_commits_despite_remote (s : Store) (remoteOk : Bool)
    (now : Int) (id : Nat) (st en : Int) (sid : Option Nat)
    (a0 : Appointment)
    (h1 : getAppointment s id = some a0)
    (h2 : conflictOf s id (targetOf sid a0) st en = false) :
    (rescheduleHandler s remoteOk now id (some st) (some en) sid).status = 200 ∧
    (rescheduleHandler s remoteOk now id (some st) (some en) sid).odooSynced
      = remoteOk ∧
    getAppointment
      (rescheduleHandler s remoteOk now id (some st) (some en) sid).store id
      = some (applyReschedule a0 st en sid now) := by
  refine ⟨?_, ?_, reschedule_result_lookup s remoteOk now id st en sid a0 h1 h2⟩
  · rw [rescheduleHandler_ok_eq s remoteOk now id st en sid a0 h1 h2]
  · rw [rescheduleHandler_ok_eq s remoteOk now id st en sid a0 h1 h2]

/-- Witness for C6: moving staff 7's only appointment to a free interval with
the remote forced to fail still answers 200 with the mutation committed and
`odooSynced = false`. -/
theorem reschedule_commits_despite_remote_witness :
    (rescheduleHandler ⟨[], [mkApt 1 (some 7) 0 3600000 ("confirmed")], 2,
        none, 0⟩ false 42 1 (some 7200000) (some 10800000) none).status
      = 200 ∧
    (rescheduleHandler ⟨[], [mkApt 1 (some 7) 0 3600000 ("confirmed")], 2,
        none, 0⟩ false 42 1 (some 7200000) (some 10800000) none).odooSynced
      = false ∧
    getAppointment
      (rescheduleHandler ⟨[], [mkApt 1 (some 7) 0 3600000 ("confirmed")], 2,
        none, 0⟩ false 42 1 (some 7200000) (some 10800000) none).store 1
      = some (applyReschedule (mkApt 1 (some 7) 0 3600000 ("confirmed"))
          7200000 10800000 none 42) :=
  reschedule_commits_despite_remote _ false 42 1 7200000 10800000 none
    (mkApt 1 (some 7) 0 3600000 ("confirmed")) (by decide) (by decide)

/-- Claim C3 (divergence evidence): for every request, the delete route
issues no remote call at all — it only removes the local record (the
repository's documentation promises a remote `unlink` first).  The route
answers 404, leaving the store as is, exactly when no appointment has the
requested id; otherwise it answers 200 with the record removed. -/
theorem cancel_deletes_locally_without_remote (s : Store) (id : Nat) :
    (deleteAppointmentHandler s id).remoteCalls = [] ∧
    (deleteAppointmentHandler s id).store.appointments
      = s.appointments.filter (fun a => !(a.id == id)) ∧
    (deleteAppointmentHandler s id).status
      = (if s.appointments.any (fun a => a.id == id) then 200 else 404) := by
  unfold deleteAppointmentHandler
  by_cases hb : s.appointments.any (fun a => a.id == id) = true
  · simp [hb]
  · have hb' : s.appointments.any (fun a => a.id == id) = false := by
      simpa using hb
    simp [hb']

/-- Claim C2 (divergence evidence): the sync route has no lock and no
rejection branch — every invocation either runs the sync to completion
(200) or fails inside the single try/catch (500); no input, and no store
state (in particular no state in which another sync is in flight), makes it
answer a 409-equivalent `SyncRejected` signal. -/
theorem sync_route_never_rejects
    (resourcesFetch : Except String (List OdooResource))
    (appsFetch : Except String (List OdooApp)) (rand : Nat → String)
    (now : Int) (s : Store) :
    (syncOdooHandler resourcesFetch appsFetch rand now s).status = 200 ∨
    (syncOdooHandler resourcesFetch appsFetch rand now s).status = 500 := by
  cases resourcesFetch with
  | error e => exact Or.inr rfl
  | ok resources =>
    cases appsFetch with
    | error e => exact Or.inr rfl
    | ok apps => exact Or.inl rfl

/-- Claim C9, counterexample: reschedule updates the time fields but never
the `duration` field.  Starting from a consistent appointment
([0ms,3600000ms), duration 60) and rescheduling it to the half-length
interval [0,1800000) yields a stored record with duration 60 and
end − start = 1800000 ms = 30 min, violating duration = end − start. -/
theorem duration_invariant_counterexample :
    (getAppointment (rescheduleHandler
        ⟨[], [mkApt 1 (some 7) 0 3600000 ("confirmed")], 2, none, 0⟩ true 50 1
        (some 0) (some 1800000) none).store 1).map
      (fun a => (a.duration, a.endTime - a.startTime)) = some (60, 1800000) ∧
    ¬ ((60 : ℚ) * 60000 = ((1800000 : Int) : ℚ)) :=
  ⟨rfl, by norm_num⟩

/-- Claim C9 (amended): booking preserves duration = end − start (when the
type duration is a whole number of minutes), but the other two mutation
paths do not enforce it: reschedule stores the new interval while leaving
`duration` unchanged from the old record, and the sync upsert stores
`duration` taken from the remote `duration` field (default 60) independently
of the remote `start`/`stop`, so either path preserves the invariant only
when its inputs happen to agree with it. -/
theorem duration_field_not_recomputed :
    (∀ (s : Store) (remoteOk : Bool) (now : Int) (id : Nat) (st en : Int)
        (sid : Option Nat) (a0 : Appointment),
      getAppointment s id = some a0 →
      conflictOf s id (targetOf sid a0) st en = false →
      getAppointment (rescheduleHandler s remoteOk now id (some st) (some en)
          sid).store id = some (applyReschedule a0 st en sid now) ∧
      (applyReschedule a0 st en sid now).duration = a0.duration) ∧
    (∀ (m : List Staff) (r : OdooApp),
      (mkAppointmentData m r).duration
        = (match r.duration with
           | some d => if d == 0 then 60 else d
           | none => 60) ∧
      (mkAppointmentData m r).startTime = r.start ∧
      (mkAppointmentData m r).endTime = r.stop) ∧
    (∀ (nid : Nat) (oe : Int) (cn sv : String) (tdur : ℚ) (st0 : Int)
        (sid : Option Nat) (now : Int) (n : ℤ),
      tdur * 60 = (n : ℚ) →
      (bookedAppointment nid oe cn sv tdur st0 sid now).duration * 60000
        = (((bookedAppointment nid oe cn sv tdur st0 sid now).endTime
            - (bookedAppointment nid oe cn sv tdur st0 sid now).startTime
            : Int) : ℚ)) := by
  refine ⟨?_, fun m r => ⟨rfl, rfl, rfl⟩, ?_⟩
  · intro s remoteOk now id st en sid a0 h1 h2
    exact ⟨reschedule_result_lookup s remoteOk now id st en sid a0 h1 h2, rfl⟩
  · intro nid oe cn sv tdur st0 sid now n h
    show tdur * 60 * 60000 = ((st0 + 60000 * ⌊tdur * 60⌋ - st0 : Int) : ℚ)
    rw [h, Int.floor_intCast]
    push_cast
    ring

/-- Witness for C9 (amended): a reschedule of a 60-minute appointment onto a
30-minute slot keeps duration 60, and a booked appointment of a 1.5-hour
type gets duration 90 with end − start = 90 minutes. -/
theorem duration_field_not_recomputed_witness :
    (getAppointment (rescheduleHandler
        ⟨[], [mkApt 1 (some 7) 0 3600000 ("confirmed")], 2, none, 0⟩ true 50 1
        (some 0) (some 1800000) none).store 1
      = some (applyReschedule (mkApt 1 (some 7) 0 3600000 ("confirmed")) 0
          1800000 none 50) ∧
     (applyReschedule (mkApt 1 (some 7) 0 3600000 ("confirmed")) 0 1800000
        none 50).duration = (mkApt 1 (some 7) 0 3600000 ("confirmed")).duration) ∧
    (bookedAppointment 9 77 ("Ann") ("Cut") (3 / 2) 0 (some 7) 5).duration * 60000
      = (((bookedAppointment 9 77 ("Ann") ("Cut") (3 / 2) 0 (some 7) 5).endTime
          - (bookedAppointment 9 77 ("Ann") ("Cut") (3 / 2) 0 (some 7) 5).startTime
          : Int) : ℚ) :=
  ⟨duration_field_not_recomputed.1
      ⟨[], [mkApt 1 (some 7) 0 3600000 ("confirmed")], 2, none, 0⟩ true 50 1 0
      1800000 none (mkApt 1 (some 7) 0 3600000 ("confirmed"))
      (by decide) (by decide),
   duration_field_not_recomputed.2.2 9 77 ("Ann") ("Cut") (3 / 2) 0 (some 7) 5 90
      (by norm_num)⟩

/-- Helper: the route's ternary day conversion agrees with the
`(nativeDay + 6) % 7` formulation for every native weekday. -/
theorem odooDay_eq :
    ∀ d : Fin 7,
      (if (d : Nat) = 0 then 6 else (d : Nat) - 1) = ((d : Nat) + 6) % 7 := by
  decide

/-- Claim C8: the availability check is true exactly when the staff member
has no `workingHours`, when the schedule fails to parse (fail-open, no error
raised), or when some schedule entry matches the slot's weekday converted by
`(nativeDay + 6) % 7` and satisfies
`hourFrom ≤ hour + minute/60 < hourTo`. -/
theorem staff_availability_characterization
    (parse : String → Option (List WorkEntry)) (t : SlotTime) (st : Staff) :
    isStaffAvailable parse t st = true ↔
      st.workingHours = none ∨
      (∃ s0, st.workingHours = some s0 ∧ parse s0 = none) ∨
      (∃ s0 entries, st.workingHours = some s0 ∧ parse s0 = some entries ∧
        ∃ wh ∈ entries, wh.dayOfWeek = ((t.jsDay : Nat) + 6) % 7 ∧
          wh.hourFrom ≤ slotDecimalHour t ∧ slotDecimalHour t < wh.hourTo) := by
  cases hw : st.workingHours with
  | none => simp [isStaffAvailable, hw]
  | some s0 =>
    cases hp : parse s0 with
    | none => simp [isStaffAvailable, hw, hp]
    | some entries =>
      simp only [isStaffAvailable, hw, hp]
      rw [List.any_eq_true]
      simp [odooDay_eq t.jsDay, hp, Bool.and_eq_true, decide_eq_true_iff,
        and_assoc]

/-- Helper: the appointment loop never touches the staff map. -/
theorem staffList_syncAppStep (now : Int) (s : Store) (r : OdooApp) :
    (syncAppStep now s r).staffList = s.staffList := by
  unfold syncAppStep
  cases h : getAppointmentByOdooEventId s r.id <;>
    simp [h, createAppointmentFromSync]

/-- Helper: the appointment loop never touches the staff map (whole fold). -/
theorem staffList_foldl_syncAppStep (now : Int) (apps : List OdooApp)
    (s : Store) :
    (apps.foldl (syncAppStep now) s).staffList = s.staffList := by
  induction apps generalizing s with
  | nil => rfl
  | cons r rest ih =>
    rw [List.foldl_cons, ih, staffList_syncAppStep]

/-- Helper: a staff member stays present through one staff-loop step. -/
theorem staffPresent_syncStaffStep (rand : Nat → String) (now : Int)
    (s : Store) (r : OdooResource) (u : Int)
    (h : (getStaffByOdooUserId s.staffList u).isSome = true) :
    (getStaffByOdooUserId (syncStaffStep rand now s r).staffList u).isSome
      = true := by
  unfold syncStaffStep
  cases hq : getStaffByOdooUserId s.staffList r.id with
  | some st => exact h
  | none =>
    unfold getStaffByOdooUserId at h ⊢
    obtain ⟨x, hx⟩ := Option.isSome_iff_exists.mp h
    simp only [createStaffRecord]
    rw [find?_append_left _ _ _ x hx]
    rfl

/-- Helper: after one staff-loop step the step's own resource is present. -/
theorem staffPresent_self (rand : Nat → String) (now : Int) (s : Store)
    (r : OdooResource) :
    (getStaffByOdooUserId (syncStaffStep rand now s r).staffList
      r.id).isSome = true := by
  unfold syncStaffStep
  cases hq : getStaffByOdooUserId s.staffList r.id with
  | some st => simpa using congrArg Option.isSome hq
  | none =>
    unfold getStaffByOdooUserId at hq ⊢
    simp only [createStaffRecord]
    rw [find?_append_right _ _ _ hq]
    simp

/-- Helper: the staff-loop step is the identity on an already-present
resource. -/
theorem syncStaffStep_of_present (rand : Nat → String) (now : Int)
    (s : Store) (r : OdooResource)
    (h : (getStaffByOdooUserId s.staffList r.id).isSome = true) :
    syncStaffStep rand now s r = s := by
  unfold syncStaffStep
  cases hq : getStaffByOdooUserId s.staffList r.id with
  | some st => rfl
  | none => rw [hq] at h; simp at h

/-- Helper: presence survives the whole staff fold. -/
theorem staffPresent_foldl (rand : Nat → String) (now : Int)
    (res : List OdooResource) (s : Store) (u : Int)
    (h : (getStaffByOdooUserId s.staffList u).isSome = true) :
    (getStaffByOdooUserId
      ((res.foldl (syncStaffStep rand now) s)).staffList u).isSome = true := by
  induction res generalizing s with
  | nil => exact h
  | cons r rest ih =>
    rw [List.foldl_cons]
    exact ih _ (staffPresent_syncStaffStep rand now s r u h)

/-- Helper: after the staff fold every listed resource is present. -/
theorem staffPresent_after_foldl (rand : Nat → String) (now : Int)
    (res : List OdooResource) (s : Store) :
    ∀ r ∈ res,
      (getStaffByOdooUserId
        ((res.foldl (syncStaffStep rand now) s)).staffList r.id).isSome
        = true := by
  induction res generalizing s with
  | nil => intro r hr; simp at hr
  | cons r0 rest ih =>
    intro r hr
    rw [List.foldl_cons]
    rcases List.mem_cons.mp hr with h | h
    · subst h
      exact staffPresent_foldl rand now rest _ r.id
        (staffPresent_self rand now s r)
    · exact ih _ r h

/-- Helper: the staff fold is the identity when every resource is already
present. -/
theorem staffFoldl_of_present (rand : Nat → String) (now : Int)
    (res : List OdooResource) (s : Store)
    (h : ∀ r ∈ res, (getStaffByOdooUserId s.staffList r.id).isSome = true) :
    res.foldl (syncStaffStep rand now) s = s := by
  induction res with
  | nil => rfl
  | cons r0 rest ih =>
    rw [List.foldl_cons,
      syncStaffStep_of_present rand now s r0 (h r0 (List.mem_cons_self r0 rest))]
    exact ih (fun r hr => h r (List.mem_cons_of_mem r0 hr))

/-- Helper: the staff-loop step keeps the store sane. -/
theorem nice_syncStaffStep (rand : Nat → String) (now : Int) (s : Store)
    (r : OdooResource) (h : NiceStore s) :
    NiceStore (syncStaffStep rand now s r) := by
  unfold syncStaffStep
  cases hq : getStaffByOdooUserId s.staffList r.id with
  | some st => exact h
  | none =>
    exact ⟨h.1, fun a ha => Nat.lt_succ_of_lt (h.2 a ha)⟩

/-- Helper: the whole staff fold keeps the store sane. -/
theorem nice_foldl_staff (rand : Nat → String) (now : Int)
    (res : List OdooResource) (s : Store) (h : NiceStore s) :
    NiceStore (res.foldl (syncStaffStep rand now) s) := by
  induction res generalizing s with
  | nil => exact h
  | cons r rest ih =>
    rw [List.foldl_cons]
    exact ih _ (nice_syncStaffStep rand now s r h)

/-- Helper: the sync update keeps the local id. -/
theorem applySyncUpdate_id (a : Appointment) (d : SyncAppointmentData)
    (now : Int) : (applySyncUpdate a d now).id = a.id := rfl

/-- Helper: the appointment-loop step in the update case, as an equation. -/
theorem syncAppStep_update_eq (now : Int) (s : Store) (r : OdooApp)
    (ex : Appointment) (hf : getAppointmentByOdooEventId s r.id = some ex) :
    syncAppStep now s r
      = { s with appointments := s.appointments.map fun a =>
            if a.id == ex.id
            then applySyncUpdate a (mkAppointmentData s.staffList r) now
            else a } := by
  unfold syncAppStep
  rw [hf]

/-- Helper: the appointment-loop step in the create case, as an equation. -/
theorem syncAppStep_create_eq (now : Int) (s : Store) (r : OdooApp)
    (hf : getAppointmentByOdooEventId s r.id = none) :
    syncAppStep now s r
      = createAppointmentFromSync s (mkAppointmentData s.staffList r) now := by
  unfold syncAppStep
  rw [hf]

/-- Helper: the appointment-loop step keeps the store sane. -/
theorem nice_syncAppStep (now : Int) (s : Store) (r : OdooApp)
    (h : NiceStore s) : NiceStore (syncAppStep now s r) := by
  cases hf : getAppointmentByOdooEventId s r.id with
  | some ex =>
    rw [syncAppStep_update_eq now s r ex hf]
    refine ⟨?_, ?_⟩ <;> dsimp only
    · have hids :
        (s.appointments.map fun a =>
            if a.id == ex.id
            then applySyncUpdate a (mkAppointmentData s.staffList r) now
            else a).map (fun a => a.id)
          = s.appointments.map (fun a => a.id) := by
        rw [List.map_map]
        refine List.map_congr_left ?_
        intro a _
        by_cases hb : a.id = ex.id <;> simp [hb, applySyncUpdate_id]
      rw [hids]
      exact h.1
    · intro a ha
      rcases List.mem_map.mp ha with ⟨b, hb, hba⟩
      subst hba
      by_cases hbb : b.id = ex.id <;>
        simpa [hbb, applySyncUpdate_id] using h.2 b hb
  | none =>
    rw [syncAppStep_create_eq now s r hf]
    simp only [createAppointmentFromSync]
    refine ⟨?_, ?_⟩ <;> dsimp only
    · rw [List.map_append, List.nodup_append]
      refine ⟨h.1, List.nodup_singleton _, ?_⟩
      intro x hx hx'
      rcases List.mem_map.mp hx with ⟨b, hb, hbx⟩
      have hxs : x = s.nextId := by simpa using hx'
      have := h.2 b hb
      omega
    · intro a ha
      rcases List.mem_append.mp ha with hmem | hmem
      · exact Nat.lt_succ_of_lt (h.2 a hmem)
      · have hid2 : a.id = s.nextId := by
          have := List.mem_singleton.mp hmem
          rw [this]
          rfl
        omega

/-- Helper: a freshly updated record matches the payload it was updated
with. -/
theorem matchesData_applySyncUpdate (a : Appointment)
    (d : SyncAppointmentData) (now : Int) :
    matchesData (applySyncUpdate a d now) d :=
  ⟨rfl, rfl, rfl, rfl, rfl, rfl, rfl, rfl, rfl, rfl, rfl, rfl⟩

/-- Helper: updating a record that already matches the payload only touches
`lastSynced`. -/
theorem applySyncUpdate_of_matches (a : Appointment)
    (d : SyncAppointmentData) (now : Int) (h : matchesData a d) :
    applySyncUpdate a d now = { a with lastSynced := now } := by
  obtain ⟨h1, h2, h3, h4, h5, h6, h7, h8, h9, h10, h11, h12⟩ := h
  cases a
  simp only [applySyncUpdate]
  simp_all

/-- Helper: up to `lastSynced`, re-updating a matching record is the
identity. -/
theorem eraseApp_applySyncUpdate (a : Appointment) (d : SyncAppointmentData)
    (now : Int) (h : matchesData a d) :
    eraseApp (applySyncUpdate a d now) = eraseApp a := by
  rw [applySyncUpdate_of_matches a d now h]
  rfl

/-- Helper: the sync payload carries the remote event id. -/
theorem mkAppointmentData_odooEventId (m : List Staff) (r : OdooApp) :
    (mkAppointmentData m r).odooEventId = r.id := rfl

/-- Helper: a freshly created sync record matches its payload. -/
theorem matchesData_newSyncAppointment (nid : Nat)
    (d : SyncAppointmentData) (now : Int) :
    matchesData (newSyncAppointment nid d now) d :=
  ⟨rfl, rfl, rfl, rfl, rfl, rfl, rfl, rfl, rfl, rfl, rfl, rfl⟩

/-- Helper: after the appointment-loop step for `r`, the store holds a
record matching `r`'s payload under `r`'s remote event id. -/
theorem good_syncAppStep_self (now : Int) (s : Store) (r : OdooApp)
    (hnice : NiceStore s) :
    ∃ ex, getAppointmentByOdooEventId (syncAppStep now s r) r.id = some ex ∧
      matchesData ex (mkAppointmentData s.staffList r) := by
  cases hf : getAppointmentByOdooEventId s r.id with
  | none =>
    rw [syncAppStep_create_eq now s r hf]
    refine ⟨newSyncAppointment s.nextId (mkAppointmentData s.staffList r) now,
      ?_, matchesData_newSyncAppointment _ _ _⟩
    unfold getAppointmentByOdooEventId at hf ⊢
    unfold createAppointmentFromSync
    dsimp only
    rw [find?_append_right _ _ _ hf]
    rw [List.find?_cons_of_pos _ (by simp [newSyncAppointment,
      mkAppointmentData_odooEventId])]
  | some ex =>
    rw [syncAppStep_update_eq now s r ex hf]
    have hfind : s.appointments.find? (fun a => a.odooEventId == r.id)
        = some ex := hf
    have hmemex : ex ∈ s.appointments := List.mem_of_find?_eq_some hfind
    have hpex : (ex.odooEventId == r.id) = true := by
      simpa using List.find?_some hfind
    have hmap := find?_map_update (fun a => a.odooEventId == r.id)
      (fun a => if a.id == ex.id
                then applySyncUpdate a (mkAppointmentData s.staffList r) now
                else a)
      s.appointments ex hfind ?_ ?_
    · refine ⟨applySyncUpdate ex (mkAppointmentData s.staffList r) now,
        ?_, matchesData_applySyncUpdate _ _ _⟩
      unfold getAppointmentByOdooEventId
      dsimp only
      rw [hmap]
      simp
    · intro a hmem hpa
      have hpa' : (a.odooEventId == r.id) = false := hpa
      have hne : ¬ a.id = ex.id := by
        intro hid
        have hae : a = ex :=
          List.inj_on_of_nodup_map hnice.1 hmem hmemex hid
        rw [hae, hpex] at hpa'
        exact absurd hpa' (by simp)
      simp [hne]
    · simp [applySyncUpdate, mkAppointmentData_odooEventId]

/-- Helper: the record established for `r` survives the step for a remote
appointment with a different remote id. -/
theorem good_preserved (now : Int) (s : Store) (r r' : OdooApp)
    (hne : r.id ≠ r'.id) (hnice : NiceStore s)
    (hg : ∃ ex, getAppointmentByOdooEventId s r.id = some ex ∧
      matchesData ex (mkAppointmentData s.staffList r)) :
    ∃ ex, getAppointmentByOdooEventId (syncAppStep now s r') r.id = some ex ∧
      matchesData ex (mkAppointmentData s.staffList r) := by
  obtain ⟨ex, hex, hmd⟩ := hg
  cases hf : getAppointmentByOdooEventId s r'.id with
  | none =>
    rw [syncAppStep_create_eq now s r' hf]
    refine ⟨ex, ?_, hmd⟩
    unfold getAppointmentByOdooEventId at hex ⊢
    unfold createAppointmentFromSync
    dsimp only
    exact find?_append_left _ _ _ ex hex
  | some ex' =>
    rw [syncAppStep_update_eq now s r' ex' hf]
    have hfind : s.appointments.find? (fun a => a.odooEventId == r.id)
        = some ex := hex
    have hfind' : s.appointments.find? (fun a => a.odooEventId == r'.id)
        = some ex' := hf
    have hmemex : ex ∈ s.appointments := List.mem_of_find?_eq_some hfind
    have hmemex' : ex' ∈ s.appointments := List.mem_of_find?_eq_some hfind'
    have hevex : ex.odooEventId = r.id := hmd.1
    have hevex' : ex'.odooEventId = r'.id := by
      simpa using List.find?_some hfind'
    have hexne : ¬ ex.id = ex'.id := by
      intro hid
      have : ex = ex' := List.inj_on_of_nodup_map hnice.1 hmemex hmemex' hid
      rw [this, hevex'] at hevex
      exact hne hevex.symm
    have hmap := find?_map_keep (fun a => a.odooEventId == r.id)
      (fun a => if a.id == ex'.id
                then applySyncUpdate a (mkAppointmentData s.staffList r') now
                else a)
      s.appointments ex hfind (by simp [hexne]) ?_
    · refine ⟨ex, ?_, hmd⟩
      unfold getAppointmentByOdooEventId
      dsimp only
      exact hmap
    · intro a hmem hpa
      have hpa' : (a.odooEventId == r.id) = false := hpa
      by_cases hb : a.id = ex'.id
      · have hrr : ¬ r'.id = r.id := fun hq => hne hq.symm
        simp [hb, applySyncUpdate, mkAppointmentData_odooEventId, hrr]
      · simp [hb, hpa']

/-- Helper: re-running the step for `r` on a store that already matches
`r`'s payload changes nothing up to `lastSynced`. -/
theorem appStep_erased_id (now : Int) (s : Store) (r : OdooApp)
    (hnice : NiceStore s)
    (hg : ∃ ex, getAppointmentByOdooEventId s r.id = some ex ∧
      matchesData ex (mkAppointmentData s.staffList r)) :
    ∃ l', syncAppStep now s r = { s with appointments := l' } ∧
      l'.map eraseApp = s.appointments.map eraseApp := by
  obtain ⟨ex, hex, hmd⟩ := hg
  rw [syncAppStep_update_eq now s r ex hex]
  refine ⟨_, rfl, ?_⟩
  rw [List.map_map]
  refine List.map_congr_left ?_
  intro a hmem
  have hmemex : ex ∈ s.appointments :=
    List.mem_of_find?_eq_some (hex :
      s.appointments.find? (fun a => a.odooEventId == r.id) = some ex)
  by_cases hb : a.id = ex.id
  · have hae : a = ex := List.inj_on_of_nodup_map hnice.1 hmem hmemex hb
    subst hae
    show eraseApp (if a.id == a.id
        then applySyncUpdate a (mkAppointmentData s.staffList r) now
        else a) = eraseApp a
    rw [if_pos (by simp)]
    exact eraseApp_applySyncUpdate a _ now hmd
  · show eraseApp (if a.id == ex.id
        then applySyncUpdate a (mkAppointmentData s.staffList r) now
        else a) = eraseApp a
    rw [if_neg (by simp [hb])]

/-- Helper: a whole second pass of the appointment loop over an
already-matching store changes nothing up to `lastSynced`. -/
theorem run2_fold_erased_id (now : Int) (apps : List OdooApp) (s : Store)
    (hnodup : (apps.map (fun r => r.id)).Nodup) (hnice : NiceStore s)
    (hgood : ∀ r ∈ apps,
      ∃ ex, getAppointmentByOdooEventId s r.id = some ex ∧
        matchesData ex (mkAppointmentData s.staffList r)) :
    ∃ l', apps.foldl (syncAppStep now) s = { s with appointments := l' } ∧
      l'.map eraseApp = s.appointments.map eraseApp := by
  induction apps generalizing s with
  | nil => exact ⟨s.appointments, rfl, rfl⟩
  | cons r rest ih =>
    obtain ⟨l1, h1, h1e⟩ :=
      appStep_erased_id now s r hnice (hgood r (List.mem_cons_self r rest))
    have hnice' : NiceStore (syncAppStep now s r) :=
      nice_syncAppStep now s r hnice
    have hgood' : ∀ r'' ∈ rest,
        ∃ ex, getAppointmentByOdooEventId (syncAppStep now s r) r''.id
            = some ex ∧
          matchesData ex
            (mkAppointmentData (syncAppStep now s r).staffList r'') := by
      intro r'' hr''
      have hne : r''.id ≠ r.id := by
        intro he
        have hmm : r.id ∈ rest.map (fun q => q.id) := by
          rw [← he]
          exact List.mem_map_of_mem (fun q => q.id) hr''
        exact (List.nodup_cons.mp hnodup).1 hmm
      rw [staffList_syncAppStep now s r]
      exact good_preserved now s r'' r hne hnice
        (hgood r'' (List.mem_cons_of_mem r hr''))
    rw [List.foldl_cons]
    obtain ⟨l2, h2, h2e⟩ :=
      ih (syncAppStep now s r) (List.nodup_cons.mp hnodup).2 hnice' hgood'
    refine ⟨l2, ?_, ?_⟩
    · rw [h2, h1]
    · rw [h2e, h1]
      exact h1e

/-- Helper: the record established for `r` survives the rest of the
appointment loop when no later remote appointment reuses `r`'s id. -/
theorem good_fold_preserve (now : Int) (rest : List OdooApp) (s : Store)
    (r : OdooApp) (hnice : NiceStore s)
    (hdiff : ∀ r' ∈ rest, r.id ≠ r'.id)
    (hg : ∃ ex, getAppointmentByOdooEventId s r.id = some ex ∧
      matchesData ex (mkAppointmentData s.staffList r)) :
    ∃ ex, getAppointmentByOdooEventId (rest.foldl (syncAppStep now) s) r.id
        = some ex ∧
      matchesData ex (mkAppointmentData s.staffList r) := by
  induction rest generalizing s with
  | nil => exact hg
  | cons r' rs ih =>
    rw [List.foldl_cons]
    have hstep := good_preserved now s r r'
      (hdiff r' (List.mem_cons_self r' rs)) hnice hg
    have hstep' : ∃ ex,
        getAppointmentByOdooEventId (syncAppStep now s r') r.id = some ex ∧
        matchesData ex
          (mkAppointmentData (syncAppStep now s r').staffList r) := by
      rw [staffList_syncAppStep now s r']
      exact hstep
    have hres := ih (syncAppStep now s r') (nice_syncAppStep now s r' hnice)
      (fun q hq => hdiff q (List.mem_cons_of_mem r' hq)) hstep'
    rw [staffList_syncAppStep now s r'] at hres
    exact hres

/-- Helper: after one pass of the appointment loop, every processed remote
appointment has a matching local record under its remote id. -/
theorem allGood_after_fold (now : Int) (apps : List OdooApp) (s : Store)
    (hnodup : (apps.map (fun r => r.id)).Nodup) (hnice : NiceStore s) :
    ∀ r ∈ apps, ∃ ex,
      getAppointmentByOdooEventId (apps.foldl (syncAppStep now) s) r.id
        = some ex ∧
      matchesData ex (mkAppointmentData s.staffList r) := by
  induction apps generalizing s with
  | nil => intro r hr; simp at hr
  | cons r0 rest ih =>
    intro r hr
    rw [List.foldl_cons]
    rcases List.mem_cons.mp hr with heq | htail
    · subst heq
      have hself := good_syncAppStep_self now s r hnice
      have hself' : ∃ ex,
          getAppointmentByOdooEventId (syncAppStep now s r) r.id = some ex ∧
          matchesData ex
            (mkAppointmentData (syncAppStep now s r).staffList r) := by
        rw [staffList_syncAppStep now s r]
        exact hself
      have hdiff : ∀ r' ∈ rest, r.id ≠ r'.id := by
        intro r' hr' he
        have hmm : r.id ∈ rest.map (fun q => q.id) := by
          rw [he]
          exact List.mem_map_of_mem (fun q => q.id) hr'
        exact (List.nodup_cons.mp hnodup).1 hmm
      have hres := good_fold_preserve now rest (syncAppStep now s r) r
        (nice_syncAppStep now s r hnice) hdiff hself'
      rw [staffList_syncAppStep now s r] at hres
      exact hres
    · have hres := ih (syncAppStep now s r0)
        (List.nodup_cons.mp hnodup).2 (nice_syncAppStep now s r0 hnice)
        r htail
      rw [staffList_syncAppStep now s r0] at hres
      exact hres

/-- Helper: the whole appointment fold keeps the store sane. -/
theorem nice_foldl_app (now : Int) (apps : List OdooApp) (s : Store)
    (h : NiceStore s) : NiceStore (apps.foldl (syncAppStep now) s) := by
  induction apps generalizing s with
  | nil => exact h
  | cons r rest ih =>
    rw [List.foldl_cons]
    exact ih _ (nice_syncAppStep now s r h)

/-- Claim C7: the sync is idempotent.  Re-running the sync pass with the
same remote resources and remote appointments (remote appointment ids
pairwise distinct, as the remote system guarantees) over any sane store
yields, up to the refreshed sync timestamps (`lastSynced`, the watermark and
its `updatedAt`), exactly the same staff and appointment sets — same
records, same order, same count, no duplicates, and the fresh-id counter
does not move.  The color oracle and the two run instants may even differ
between the runs. -/
theorem sync_idempotent (s0 : Store) (resources : List OdooResource)
    (apps : List OdooApp) (rand1 rand2 : Nat → String) (now1 now2 : Int)
    (hnice : NiceStore s0)
    (hnodup : (apps.map (fun r => r.id)).Nodup) :
    eraseStore (runSyncCore rand2 now2 resources apps
        (runSyncCore rand1 now1 resources apps s0))
      = eraseStore (runSyncCore rand1 now1 resources apps s0) := by
  set A := resources.foldl (syncStaffStep rand1 now1) s0 with hAdef
  set B := apps.foldl (syncAppStep now1) A with hBdef
  set s1 := runSyncCore rand1 now1 resources apps s0 with hs1def
  have hA : NiceStore A := nice_foldl_staff rand1 now1 resources s0 hnice
  have hB : NiceStore B := nice_foldl_app now1 apps A hA
  have hs1B :
      s1 = { B with lastOdooSync := some now1, settingsUpdatedAt := now1 } :=
    rfl
  have hs1staff : s1.staffList = A.staffList := by
    rw [hs1B]
    exact staffList_foldl_syncAppStep now1 apps A
  have hpres : ∀ r ∈ resources,
      (getStaffByOdooUserId s1.staffList r.id).isSome = true := by
    intro r hr
    rw [hs1staff]
    exact staffPresent_after_foldl rand1 now1 resources s0 r hr
  have hstaff2 : resources.foldl (syncStaffStep rand2 now2) s1 = s1 :=
    staffFoldl_of_present rand2 now2 resources s1 hpres
  have hnice1 : NiceStore s1 := hB
  have hgood2 : ∀ r ∈ apps, ∃ ex,
      getAppointmentByOdooEventId s1 r.id = some ex ∧
      matchesData ex (mkAppointmentData s1.staffList r) := by
    intro r hr
    have h := allGood_after_fold now1 apps A hnodup hA r hr
    rw [hs1staff]
    exact h
  obtain ⟨l2, h2, h2e⟩ := run2_fold_erased_id now2 apps s1 hnodup hnice1 hgood2
  show eraseStore { (apps.foldl (syncAppStep now2)
      (resources.foldl (syncStaffStep rand2 now2) s1)) with
      lastOdooSync := some now2, settingsUpdatedAt := now2 }
    = eraseStore s1
  rw [hstaff2, h2]
  unfold eraseStore
  dsimp only
  rw [h2e]

/-- Witness for C7: syncing one remote resource and one remote appointment
into the empty store twice (with different instants and different color
oracles) leaves the staff and appointment sets of the first run unchanged up
to sync timestamps. -/
theorem sync_idempotent_witness :
    eraseStore (runSyncCore (fun _ => "#22cc88") 9 [⟨10, "Ann Lee", some 3⟩]
        [⟨501, "Cut - Ann", some 10, [], none, some (2, "Cut"), 0, 3600000,
          some 60, none⟩]
        (runSyncCore (fun _ => "#123456") 5 [⟨10, "Ann Lee", some 3⟩]
          [⟨501, "Cut - Ann", some 10, [], none, some (2, "Cut"), 0, 3600000,
            some 60, none⟩]
          ⟨[], [], 0, none, 0⟩))
      = eraseStore (runSyncCore (fun _ => "#123456") 5 [⟨10, "Ann Lee", some 3⟩]
          [⟨501, "Cut - Ann", some 10, [], none, some (2, "Cut"), 0, 3600000,
            some 60, none⟩]
          ⟨[], [], 0, none, 0⟩) :=
  sync_idempotent ⟨[], [], 0, none, 0⟩ [⟨10, "Ann Lee", some 3⟩]
    [⟨501, "Cut - Ann", some 10, [], none, some (2, "Cut"), 0, 3600000,
      some 60, none⟩]
    (fun _ => "#123456") (fun _ => "#22cc88") 5 9 (by decide) (by decide)

end BnB
